import Mathlib

/-!
Verification of the progressive-learning chess engine's training core.

The development shallowly embeds the curriculum controller, the spaced
repetition scheduler, the training orchestrator
(objc/CurriculumChessApp.h and the training-engine translation unit) and
the Pavlovian associative learner (src/inference_engine.cpp).

Doubles of the curriculum / scheduler / orchestrator code are modelled by
DVal: an exact rational together with the IEEE special values +inf, -inf
and NaN, with IEEE comparison and propagation rules (rounding is not
modelled; no claim depends on it).  The Pavlovian module, whose claims
are purely order/arithmetic facts about finite values, is embedded over
exact rationals.  Machine timestamps (the C time(nullptr) calls) are
passed in explicitly as a parameter named now.
-/

/-- Model of a C double: an exact rational, or one of the IEEE special
values +inf, -inf, NaN. -/
inductive DVal where
  | fin : ℚ → DVal
  | pinf : DVal
  | ninf : DVal
  | nan : DVal
deriving DecidableEq, Repr, Inhabited

namespace DVal

/-- IEEE negation. -/
def neg : DVal → DVal
  | fin q => fin (-q)
  | pinf => ninf
  | ninf => pinf
  | nan => nan

/-- IEEE addition (exact on finite values). -/
def add : DVal → DVal → DVal
  | nan, _ => nan
  | _, nan => nan
  | fin a, fin b => fin (a + b)
  | pinf, ninf => nan
  | ninf, pinf => nan
  | pinf, _ => pinf
  | _, pinf => pinf
  | ninf, _ => ninf
  | _, ninf => ninf

/-- IEEE subtraction. -/
def sub (a b : DVal) : DVal := add a (neg b)

/-- IEEE multiplication (exact on finite values; 0 * inf = NaN). -/
def mul : DVal → DVal → DVal
  | nan, _ => nan
  | _, nan => nan
  | fin a, fin b => fin (a * b)
  | fin a, pinf => if 0 < a then pinf else if a < 0 then ninf else nan
  | pinf, fin a => if 0 < a then pinf else if a < 0 then ninf else nan
  | fin a, ninf => if 0 < a then ninf else if a < 0 then pinf else nan
  | ninf, fin a => if 0 < a then ninf else if a < 0 then pinf else nan
  | pinf, pinf => pinf
  | ninf, ninf => pinf
  | pinf, ninf => ninf
  | ninf, pinf => ninf

/-- IEEE division (exact on finite values; x/0 gives a signed infinity,
0/0 gives NaN; rationals have no signed zero, zero is treated as +0). -/
def div : DVal → DVal → DVal
  | nan, _ => nan
  | _, nan => nan
  | fin a, fin b =>
      if b = 0 then (if a = 0 then nan else if 0 < a then pinf else ninf)
      else fin (a / b)
  | pinf, fin b => if b < 0 then ninf else pinf
  | ninf, fin b => if b < 0 then pinf else ninf
  | fin _, pinf => fin 0
  | fin _, ninf => fin 0
  | pinf, _ => nan
  | ninf, _ => nan

/-- IEEE absolute value. -/
def abs : DVal → DVal
  | fin q => fin |q|
  | pinf => pinf
  | ninf => pinf
  | nan => nan

/-- IEEE strict less-than: any comparison with NaN is false. -/
def lt : DVal → DVal → Bool
  | nan, _ => false
  | _, nan => false
  | fin a, fin b => decide (a < b)
  | fin _, pinf => true
  | ninf, fin _ => true
  | ninf, pinf => true
  | pinf, _ => false
  | _, ninf => false

/-- IEEE less-or-equal: any comparison with NaN is false. -/
def le : DVal → DVal → Bool
  | nan, _ => false
  | _, nan => false
  | fin a, fin b => decide (a ≤ b)
  | ninf, _ => true
  | _, pinf => true
  | pinf, fin _ => false
  | pinf, ninf => false
  | fin _, ninf => false

theorem le_nan_eq_false (a : DVal) : le a nan = false := by
  cases a <;> rfl

theorem le_eq_false_of_lt (a b : DVal) (h : lt a b = true) : le b a = false := by
  cases a <;> cases b <;> simp [lt, le] at h ⊢
  exact h

end DVal

/-- Embedding of TrainingExample (include/curriculum_learning.h).  The C
input/target buffers with their sizes are modelled as lists (a list is
its contents together with its length). -/
structure TrainingExample where
  input : List DVal
  target : List DVal
  difficulty : DVal
  is_correct : Bool
  attempts : Nat
  correct_streak : Nat
  last_reviewed : DVal
  next_review : DVal
deriving DecidableEq, Repr, Inhabited

/-- Embedding of struct DifficultyLevel (CurriculumChessApp.h).  The C
examples/num_examples/capacity triple is modelled as a list plus the
tracked capacity. -/
structure DifficultyLevel where
  level : Nat
  examples : List TrainingExample
  capacity : Nat
  mastery_threshold : DVal
  current_accuracy : DVal
  examples_seen : Nat
deriving DecidableEq, Repr, Inhabited

/-- Embedding of struct CurriculumImpl; num_levels is levels.length. -/
structure Curriculum where
  levels : List DifficultyLevel
  current_level : Nat
  mastery_threshold : DVal
  examples_per_level : Nat
deriving DecidableEq, Repr, Inhabited

/-- curriculum_create: num_levels fresh levels, current level 0,
mastery threshold 0.85, 1000 examples per level. -/
def curriculum_create (num_levels : Nat) : Curriculum :=
  { levels := (List.range num_levels).map (fun i =>
      { level := i
        examples := []
        capacity := 1000
        mastery_threshold := DVal.fin (85/100)
        current_accuracy := DVal.fin 0
        examples_seen := 0 })
    current_level := 0
    mastery_threshold := DVal.fin (85/100)
    examples_per_level := 1000 }

/-- The deep copy of a TrainingExample performed by curriculum_add_example
(CurriculumChessApp.h lines 93-105): sizes, contents and difficulty are
copied into freshly allocated buffers, the review bookkeeping is reset and
both timestamps are set to the current time. -/
def copyExample (ex : TrainingExample) (now : DVal) : TrainingExample :=
  { input := ex.input
    target := ex.target
    difficulty := ex.difficulty
    is_correct := false
    attempts := 0
    correct_streak := 0
    last_reviewed := now
    next_review := now }

/-- curriculum_add_example: silently rejects an out-of-range level,
otherwise doubles the capacity when full and appends a deep copy. -/
def curriculum_add_example (c : Curriculum) (ex : TrainingExample)
    (level : Nat) (now : DVal) : Curriculum :=
  if c.levels.length ≤ level then c
  else
    let dl := c.levels.getD level default
    let dl := if dl.capacity ≤ dl.examples.length then
        { dl with capacity := dl.capacity * 2 } else dl
    let dl := { dl with examples := dl.examples ++ [copyExample ex now] }
    { c with levels := c.levels.set level dl }

/-- curriculum_should_advance: false at the terminal level; otherwise
records the accuracy on the current level and compares it against the
mastery threshold.  Returns the updated curriculum with the flag. -/
def curriculum_should_advance (c : Curriculum) (accuracy : DVal) :
    Curriculum × Bool :=
  if c.levels.length - 1 ≤ c.current_level then (c, false)
  else
    let dl := c.levels.getD c.current_level default
    let dl' := { dl with current_accuracy := accuracy }
    ({ c with levels := c.levels.set c.current_level dl' },
     DVal.le c.mastery_threshold accuracy)

/-- curriculum_advance_level: increment the level if not terminal. -/
def curriculum_advance_level (c : Curriculum) : Curriculum :=
  if c.current_level < c.levels.length - 1 then
    { c with current_level := c.current_level + 1 }
  else c

/-- curriculum_get_current_level: the level field of the current level. -/
def curriculum_get_current_level (c : Curriculum) : Nat :=
  (c.levels.getD c.current_level default).level

/-- Embedding of struct SpacedRepetitionImpl (CurriculumChessApp.h). -/
structure SpacedRepetition where
  examples : List TrainingExample
  capacity : Nat
  ltm_threshold : DVal
  initial_interval : DVal
deriving DecidableEq, Repr, Inhabited

/-- spaced_repetition_create: empty store with the given capacity and
long-term-memory threshold; initial review interval one hour. -/
def spaced_repetition_create (capacity : Nat) (ltm_threshold : DVal) :
    SpacedRepetition :=
  { examples := []
    capacity := capacity
    ltm_threshold := ltm_threshold
    initial_interval := DVal.fin 1 }

/-- spaced_repetition_add_example: grows by doubling when full, then
appends a deep copy with timestamps set to now and the first review
scheduled one initial interval (in hours, stored as seconds) later. -/
def spaced_repetition_add_example (sr : SpacedRepetition)
    (ex : TrainingExample) (now : DVal) : SpacedRepetition :=
  let sr := if sr.capacity ≤ sr.examples.length then
      { sr with capacity := sr.capacity * 2 } else sr
  let newEx := { copyExample ex now with
    next_review := DVal.add now (DVal.mul sr.initial_interval (DVal.fin 3600)) }
  { sr with examples := sr.examples ++ [newEx] }

/-- spaced_repetition_update_example (CurriculumChessApp.h lines 214-241).
Out-of-range indices return with no change.  Note the source order: the
entry's last_reviewed field is overwritten with now BEFORE the elapsed
interval (now - last_reviewed)/3600 is computed, exactly as in the C. -/
def spaced_repetition_update_example (sr : SpacedRepetition) (index : Nat)
    (is_correct : Bool) (now : DVal) : SpacedRepetition :=
  if sr.examples.length ≤ index then sr
  else
    let ex := sr.examples.getD index default
    let ex := { ex with
      attempts := ex.attempts + 1
      is_correct := is_correct
      last_reviewed := now }
    let ex :=
      if is_correct then
        let streak := ex.correct_streak + 1
        let interval_multiplier :=
          if 1 < streak then
            DVal.add (DVal.fin (5/2))
              (DVal.mul (DVal.fin ((streak - 1 : Nat) : ℚ)) (DVal.fin (1/2)))
          else DVal.fin (5/2)
        let current_interval :=
          DVal.div (DVal.sub now ex.last_reviewed) (DVal.fin 3600)
        let current_interval :=
          if DVal.lt current_interval (DVal.fin (1/10)) then
            sr.initial_interval
          else current_interval
        let next_interval := DVal.mul current_interval interval_multiplier
        { ex with
          correct_streak := streak
          next_review := DVal.add now (DVal.mul next_interval (DVal.fin 3600)) }
      else
        { ex with
          correct_streak := 0
          next_review :=
            DVal.add now (DVal.mul sr.initial_interval (DVal.fin 3600)) }
    { sr with examples := sr.examples.set index ex }

/-- spaced_repetition_is_in_ltm: false out of range, otherwise compares
the correct streak (a size_t, converted to double) against the
long-term-memory threshold. -/
def spaced_repetition_is_in_ltm (sr : SpacedRepetition) (index : Nat) : Bool :=
  if sr.examples.length ≤ index then false
  else
    DVal.le sr.ltm_threshold
      (DVal.fin (((sr.examples.getD index default).correct_streak : ℚ)))

/-- The scan loop of spaced_repetition_get_next_review: tracks the
earliest due next_review (initialised to 1e10) and the index of the
entry holding it; an entry is selected when it is due (next_review ≤
now) and strictly earlier than the current earliest. -/
def nextReviewScan (l : List TrainingExample) (i : Nat) (now : DVal)
    (best : Option Nat) (earliest : DVal) : Option Nat :=
  match l with
  | [] => best
  | ex :: rest =>
    if DVal.le ex.next_review now && DVal.lt ex.next_review earliest then
      nextReviewScan rest (i + 1) now (some i) ex.next_review
    else
      nextReviewScan rest (i + 1) now best earliest

/-- spaced_repetition_get_next_review, returning the index of the selected
entry (the C function returns a pointer; the caller recovers this index
by pointer comparison). -/
def spaced_repetition_get_next_review (sr : SpacedRepetition) (now : DVal) :
    Option Nat :=
  nextReviewScan sr.examples 0 now none (DVal.fin 10000000000)

/-- Embedding of TrainingStats (training_engine.h fields used here). -/
structure TrainingStats where
  current_loss : DVal
  average_loss : DVal
  accuracy : DVal
  epoch : Nat
  examples_seen : Nat
  current_level : Nat
  training_time : DVal
  validation_accuracy : DVal
deriving DecidableEq, Repr, Inhabited

/-- Embedding of the TrainingEngine state manipulated by the orchestrator
functions under verification.  The neural network, whose forward pass and
loss involve transcendental arithmetic, is passed into the orchestrator
functions as explicit forward / loss parameters (the predictor is an
external black box per the specification). -/
structure TrainingEngine where
  curriculum : Option Curriculum
  spaced_repetition : Option SpacedRepetition
  stats : TrainingStats
deriving DecidableEq, Repr, Inhabited

/-- The per-example correctness test of the curriculum epoch and the
spaced-repetition step (part_009 lines 124-130 and 178-184): correct
unless some component differs from the target by more than 0.1.  With
IEEE semantics a NaN component makes the comparison false, so it never
marks the example incorrect. -/
def classifyCorrect (output target : List DVal) : Bool :=
  (List.range target.length).all (fun j =>
    ! DVal.lt (DVal.fin (1/10))
      (DVal.abs (DVal.sub (output.getD j (DVal.fin 0))
                          (target.getD j (DVal.fin 0)))))

/-- One iteration of the curriculum training loop: accumulates the loss
and counts the example as correct when classifyCorrect accepts it. -/
def curriculumEpochStep (forward : List DVal → List DVal)
    (lossOf : TrainingExample → DVal) (acc : DVal × Nat)
    (ex : TrainingExample) : DVal × Nat :=
  let output := forward ex.input
  let total := DVal.add acc.1 (lossOf ex)
  if classifyCorrect output ex.target then (total, acc.2 + 1) else (total, acc.2)

/-- training_engine_train_with_curriculum (part_009 lines 102-146):
iterates the current level's store, accumulates loss and correctness,
advances examples_seen per example, sets the loss/accuracy statistics
(dividing by the example count, which is NaN for an empty store), and
advances the curriculum level when should_advance accepts the accuracy. -/
def training_engine_train_with_curriculum (forward : List DVal → List DVal)
    (lossOf : TrainingExample → DVal) (engine : TrainingEngine) :
    TrainingEngine :=
  match engine.curriculum with
  | none => engine
  | some c =>
    let current_level := curriculum_get_current_level c
    let level := c.levels.getD current_level default
    let r := level.examples.foldl (curriculumEpochStep forward lossOf)
      (DVal.fin 0, 0)
    let n := level.examples.length
    let stats := { engine.stats with
      examples_seen := engine.stats.examples_seen + n
      current_loss := DVal.div r.1 (DVal.fin (n : ℚ))
      accuracy := DVal.div (DVal.fin (r.2 : ℚ)) (DVal.fin (n : ℚ))
      current_level := current_level }
    let sa := curriculum_should_advance c stats.accuracy
    let c' := if sa.2 then curriculum_advance_level sa.1 else sa.1
    { engine with curriculum := some c', stats := stats }

/-- training_engine_train_with_spaced_repetition (part_009 lines
168-198): takes the next due item (returning unchanged when none is
due), classifies the prediction and updates the scheduler entry. -/
def training_engine_train_with_spaced_repetition
    (forward : List DVal → List DVal) (engine : TrainingEngine)
    (now : DVal) : TrainingEngine :=
  match engine.spaced_repetition with
  | none => engine
  | some sr =>
    match spaced_repetition_get_next_review sr now with
    | none => engine
    | some i =>
      let ex := sr.examples.getD i default
      let output := forward ex.input
      let isCorr := classifyCorrect output ex.target
      { engine with
        spaced_repetition :=
          some (spaced_repetition_update_example sr i isCorr now) }

/-- The per-example non-finite / out-of-range detector of
training_engine_validate_predictions (part_009 lines 282-295): an output
is a hallucination when some component is outside [-10, 10] or is NaN or
an infinity. -/
def hallucinationFlag (output : List DVal) : Bool :=
  output.any (fun v =>
    DVal.lt v (DVal.fin (-10)) || DVal.lt (DVal.fin 10) v ||
    v == DVal.nan || v == DVal.pinf || v == DVal.ninf)

/-- Embedding of ConditionedStimulus (include/pavlovian_learning.h);
the stimulus buffer with its size is modelled as a list. -/
structure ConditionedStimulus where
  stimulus_vector : List ℚ
  intensity : ℚ
  timestamp : ℚ
  occurrence_count : Nat
deriving DecidableEq, Repr, Inhabited

/-- Embedding of UnconditionedStimulus (include/pavlovian_learning.h). -/
structure UnconditionedStimulus where
  stimulus_vector : List ℚ
  reward_value : ℚ
  intensity : ℚ
  timestamp : ℚ
deriving DecidableEq, Repr, Inhabited

/-- Embedding of CSUSAssociation; the cs/us pointers of a stored
association are always non-null in the source, so they are embedded by
value. -/
structure CSUSAssociation where
  cs : ConditionedStimulus
  us : UnconditionedStimulus
  association_strength : ℚ
  learning_rate : ℚ
  pairings : Nat
  last_pairing_time : ℚ
deriving DecidableEq, Repr, Inhabited

/-- Embedding of PavlovianLearnerImpl (inference_engine.cpp).  The
PavlovianType tag has no effect on any embedded operation and is
omitted. -/
structure PavlovianLearner where
  associations : List CSUSAssociation
  capacity : Nat
  learning_rate : ℚ
  decay_rate : ℚ
  threshold : ℚ
deriving DecidableEq, Repr, Inhabited

/-- pavlovian_learner_create: empty table, capacity 1000, decay rate
0.01, significance threshold 0.1. -/
def pavlovian_learner_create (learning_rate : ℚ) : PavlovianLearner :=
  { associations := []
    capacity := 1000
    learning_rate := learning_rate
    decay_rate := 1/100
    threshold := 1/10 }

/-- conditioned_stimulus_create: copies the vector, stamps the time and
sets the occurrence count to one. -/
def conditioned_stimulus_create (v : List ℚ) (intensity : ℚ) (now : ℚ) :
    ConditionedStimulus :=
  { stimulus_vector := v
    intensity := intensity
    timestamp := now
    occurrence_count := 1 }

/-- unconditioned_stimulus_create: copies the vector and stamps the time. -/
def unconditioned_stimulus_create (v : List ℚ) (reward_value intensity now : ℚ) :
    UnconditionedStimulus :=
  { stimulus_vector := v
    reward_value := reward_value
    intensity := intensity
    timestamp := now }

/-- The component-wise tolerance test of find_or_create_association /
pavlovian_extinction: the first n components of a and b each differ by
at most 0.01 (the source marks a mismatch when the difference exceeds
0.01). -/
def vecClose (a b : List ℚ) (n : Nat) : Bool :=
  (List.range n).all (fun j => decide (|a.getD j 0 - b.getD j 0| ≤ 1/100))

/-- The matching test of find_or_create_association (inference_engine.cpp
lines 312-328): sizes equal on both sides and both vectors within the
per-component tolerance. -/
def assocMatches (a : CSUSAssociation) (cs : ConditionedStimulus)
    (us : UnconditionedStimulus) : Bool :=
  a.cs.stimulus_vector.length == cs.stimulus_vector.length &&
  a.us.stimulus_vector.length == us.stimulus_vector.length &&
  vecClose a.cs.stimulus_vector cs.stimulus_vector cs.stimulus_vector.length &&
  vecClose a.us.stimulus_vector us.stimulus_vector us.stimulus_vector.length

/-- Index of the first stored association matching (cs, us), if any. -/
def findAssocIdx (l : PavlovianLearner) (cs : ConditionedStimulus)
    (us : UnconditionedStimulus) : Option Nat :=
  l.associations.findIdx? (fun a => assocMatches a cs us)

/-- find_or_create_association: returns the learner (grown by doubling
and extended with a fresh zero-strength association when no match
exists) together with the index of the matched or created entry. -/
def find_or_create_association (l : PavlovianLearner)
    (cs : ConditionedStimulus) (us : UnconditionedStimulus) (now : ℚ) :
    PavlovianLearner × Nat :=
  match findAssocIdx l cs us with
  | some i => (l, i)
  | none =>
    let l := if l.capacity ≤ l.associations.length then
        { l with capacity := l.capacity * 2 } else l
    let a : CSUSAssociation :=
      { cs := conditioned_stimulus_create cs.stimulus_vector cs.intensity now
        us := unconditioned_stimulus_create us.stimulus_vector
          us.reward_value us.intensity now
        association_strength := 0
        learning_rate := l.learning_rate
        pairings := 0
        last_pairing_time := now }
    ({ l with associations := l.associations ++ [a] }, l.associations.length)

/-- The discretised Rescorla-Wagner target: the sign of the reward. -/
def lambdaOf (us : UnconditionedStimulus) : ℚ :=
  if 0 < us.reward_value then 1 else if us.reward_value < 0 then -1 else 0

/-- The two clamping branches of pavlovian_pair_stimuli, applied in
source order. -/
def clampStrength (s : ℚ) : ℚ :=
  let s := if 1 < s then 1 else s
  if s < -1 then -1 else s

/-- pavlovian_pair_stimuli (inference_engine.cpp lines 356-371): find or
create the association, apply the Rescorla-Wagner update with the
learner's learning rate, clamp to [-1, 1], count the pairing and stamp
the time. -/
def pavlovian_pair_stimuli (l : PavlovianLearner)
    (cs : ConditionedStimulus) (us : UnconditionedStimulus) (now : ℚ) :
    PavlovianLearner :=
  let fc := find_or_create_association l cs us now
  let l := fc.1
  let i := fc.2
  let a := l.associations.getD i default
  let strength := clampStrength
    (a.association_strength +
      l.learning_rate * (lambdaOf us - a.association_strength))
  let a' := { a with
    association_strength := strength
    pairings := a.pairings + 1
    last_pairing_time := now }
  { l with associations := l.associations.set i a' }

/-- The CS-only matching test of pavlovian_extinction (sizes equal and
vector within tolerance). -/
def csMatches (a : CSUSAssociation) (cs : ConditionedStimulus) : Bool :=
  a.cs.stimulus_vector.length == cs.stimulus_vector.length &&
  vecClose a.cs.stimulus_vector cs.stimulus_vector cs.stimulus_vector.length

/-- pavlovian_extinction: every association whose CS matches has its
strength multiplied by (1 - decay_rate). -/
def pavlovian_extinction (l : PavlovianLearner) (cs : ConditionedStimulus) :
    PavlovianLearner :=
  { l with associations := l.associations.map (fun a =>
      if csMatches a cs then
        { a with association_strength :=
            a.association_strength * (1 - l.decay_rate) }
      else a) }

/-- An operation of the Pavlovian learner, for stating the strength
invariant over arbitrary call sequences. -/
inductive PavOp where
  | pairOp (cs : ConditionedStimulus) (us : UnconditionedStimulus) (now : ℚ)
  | extinctionOp (cs : ConditionedStimulus)
deriving Repr

/-- Apply one Pavlovian operation. -/
def applyPavOp (l : PavlovianLearner) : PavOp → PavlovianLearner
  | .pairOp cs us now => pavlovian_pair_stimuli l cs us now
  | .extinctionOp cs => pavlovian_extinction l cs

/-- Apply a sequence of Pavlovian operations in order. -/
def applyPavOps (l : PavlovianLearner) (ops : List PavOp) : PavlovianLearner :=
  ops.foldl applyPavOp l

/-- An operation of the difficulty controller, for stating the level
monotonicity invariant over arbitrary call sequences. -/
inductive CurrOp where
  | advanceOp
  | addOp (ex : TrainingExample) (level : Nat) (now : DVal)
  | shouldAdvanceOp (accuracy : DVal)
deriving Repr

/-- Apply one curriculum operation. -/
def applyCurrOp (c : Curriculum) : CurrOp → Curriculum
  | .advanceOp => curriculum_advance_level c
  | .addOp ex level now => curriculum_add_example c ex level now
  | .shouldAdvanceOp a => (curriculum_should_advance c a).1

/-- Apply a sequence of curriculum operations in order. -/
def applyCurrOps (c : Curriculum) (ops : List CurrOp) : Curriculum :=
  ops.foldl applyCurrOp c

/-- A minimal concrete training example used by the concrete scenarios. -/
def exampleZero : TrainingExample :=
  { input := [DVal.fin 0]
    target := [DVal.fin 0]
    difficulty := DVal.fin 0
    is_correct := false
    attempts := 0
    correct_streak := 0
    last_reviewed := DVal.fin 0
    next_review := DVal.fin 0 }

/-- A scheduler holding one freshly added item (added at time 0,
capacity 100, long-term-memory threshold 5). -/
def srOne : SpacedRepetition :=
  spaced_repetition_add_example (spaced_repetition_create 100 (DVal.fin 5))
    exampleZero (DVal.fin 0)

/-- srOne after five consecutive correct reviews at times 1..5. -/
def srFive : SpacedRepetition :=
  spaced_repetition_update_example
    (spaced_repetition_update_example
      (spaced_repetition_update_example
        (spaced_repetition_update_example
          (spaced_repetition_update_example srOne 0 true (DVal.fin 1))
          0 true (DVal.fin 2))
        0 true (DVal.fin 3))
      0 true (DVal.fin 4))
    0 true (DVal.fin 5)

/-- srFive after one incorrect review at time 6. -/
def srMiss : SpacedRepetition :=
  spaced_repetition_update_example srFive 0 false (DVal.fin 6)

theorem getD_set_self {α : Type} [Inhabited α] (l : List α) (i : Nat) (a : α)
    (h : i < l.length) : (l.set i a).getD i default = a := by
  simp [List.getD_eq_getElem?_getD, List.getElem?_set_self, h]

theorem getD_set_ne {α : Type} [Inhabited α] (l : List α) (i j : Nat) (a : α)
    (h : i ≠ j) : (l.set i a).getD j default = l.getD j default := by
  simp [List.getD_eq_getElem?_getD, List.getElem?_set_ne h]

theorem getD_append_length {α : Type} [Inhabited α] (xs : List α) (a : α) :
    (xs ++ [a]).getD xs.length default = a := by
  simp [List.getD_eq_getElem?_getD, List.getElem?_append_right]

theorem set_append_length {α : Type} (xs : List α) (a b : α) :
    (xs ++ [a]).set xs.length b = xs ++ [b] := by
  simp [List.set_append_right]

/-- C10: spaced_repetition_update_example at an index at or past the end
of the store returns with the scheduler completely unchanged, and
spaced_repetition_is_in_ltm there returns false; both are total and never
touch the backing store out of range. -/
theorem spaced_repetition_out_of_range_safe (sr : SpacedRepetition)
    (index : Nat) (b : Bool) (now : DVal)
    (h : sr.examples.length ≤ index) :
    spaced_repetition_update_example sr index b now = sr ∧
    spaced_repetition_is_in_ltm sr index = false := by
  constructor
  · simp [spaced_repetition_update_example, h]
  · simp [spaced_repetition_is_in_ltm, h]

/-- Witness for C10 at the concrete one-element scheduler and index 5. -/
theorem spaced_repetition_out_of_range_safe_witness :
    srOne.examples.length ≤ 5 ∧
    (spaced_repetition_update_example srOne 5 true (DVal.fin 7) = srOne ∧
      spaced_repetition_is_in_ltm srOne 5 = false) :=
  ⟨by decide,
   spaced_repetition_out_of_range_safe srOne 5 true (DVal.fin 7) (by decide)⟩

/-- C2: curriculum_should_advance returns true exactly when the accuracy
is at least the mastery threshold and the current level is not the last;
it is false at the terminal level for every accuracy, and false whenever
the accuracy is strictly below the threshold. -/
theorem should_advance_mastery_gate (c : Curriculum) (accuracy : DVal)
    (hN : 1 ≤ c.levels.length) :
    ((curriculum_should_advance c accuracy).2 = true ↔
      (DVal.le c.mastery_threshold accuracy = true ∧
        c.current_level < c.levels.length - 1)) ∧
    (c.levels.length - 1 ≤ c.current_level →
      (curriculum_should_advance c accuracy).2 = false) ∧
    (DVal.lt accuracy c.mastery_threshold = true →
      (curriculum_should_advance c accuracy).2 = false) := by
  by_cases hterm : c.levels.length - 1 ≤ c.current_level
  · have hres : (curriculum_should_advance c accuracy).2 = false := by
      unfold curriculum_should_advance
      rw [if_pos hterm]
    rw [hres]
    exact ⟨⟨fun h => by simp at h, fun h => absurd h.2 (by omega)⟩,
      fun _ => rfl, fun _ => rfl⟩
  · have hres : (curriculum_should_advance c accuracy).2 =
        DVal.le c.mastery_threshold accuracy := by
      unfold curriculum_should_advance
      rw [if_neg hterm]
    rw [hres]
    exact ⟨⟨fun h => ⟨h, by omega⟩, fun h => h.1⟩,
      fun hx => absurd hx hterm,
      fun hlt => DVal.le_eq_false_of_lt accuracy c.mastery_threshold hlt⟩

/-- Witness for C2 at a two-level curriculum and accuracy 0.9. -/
theorem should_advance_mastery_gate_witness :
    1 ≤ (curriculum_create 2).levels.length ∧
    ((curriculum_should_advance (curriculum_create 2) (DVal.fin (9/10))).2 = true ↔
      (DVal.le (curriculum_create 2).mastery_threshold (DVal.fin (9/10)) = true ∧
        (curriculum_create 2).current_level < (curriculum_create 2).levels.length - 1)) :=
  ⟨by decide,
   (should_advance_mastery_gate (curriculum_create 2) (DVal.fin (9/10)) (by decide)).1⟩

/-- Explicit constructor for the concrete scheduler entries appearing in
the evaluated states below. -/
def entryAt (corr : Bool) (att streak : Nat) (lastR nextR : DVal) :
    TrainingExample :=
  { input := [DVal.fin 0]
    target := [DVal.fin 0]
    difficulty := DVal.fin 0
    is_correct := corr
    attempts := att
    correct_streak := streak
    last_reviewed := lastR
    next_review := nextR }

theorem srOne_val : srOne =
    { examples := [entryAt false 0 0 (DVal.fin 0) (DVal.fin 3600)]
      capacity := 100
      ltm_threshold := DVal.fin 5
      initial_interval := DVal.fin 1 } := by
  norm_num [srOne, spaced_repetition_add_example, spaced_repetition_create,
    copyExample, exampleZero, entryAt, DVal.add, DVal.mul]

theorem srMiss_val : srMiss =
    { examples := [entryAt false 6 0 (DVal.fin 6) (DVal.fin 3606)]
      capacity := 100
      ltm_threshold := DVal.fin 5
      initial_interval := DVal.fin 1 } := by
  rw [srMiss, srFive, srOne_val]
  norm_num [spaced_repetition_update_example, entryAt, DVal.add, DVal.mul,
    DVal.sub, DVal.neg, DVal.div, DVal.lt, List.getD_cons_zero]

/-- C6: spaced_repetition_is_in_ltm holds at a valid index exactly when
the entry's correct streak has reached the long-term-memory threshold;
concretely, with threshold 5, five consecutive correct reviews of a
freshly added item put it in long-term memory, and one subsequent
incorrect review resets the streak to 0, leaves long-term memory and
reschedules to last_reviewed plus the initial interval (one hour, stored
in seconds). -/
theorem is_in_ltm_iff_streak :
    (∀ (sr : SpacedRepetition) (index : Nat), index < sr.examples.length →
      (spaced_repetition_is_in_ltm sr index = true ↔
        DVal.le sr.ltm_threshold
          (DVal.fin (((sr.examples.getD index default).correct_streak : ℚ)))
            = true)) ∧
    spaced_repetition_is_in_ltm srFive 0 = true ∧
    spaced_repetition_is_in_ltm srMiss 0 = false ∧
    (srMiss.examples.getD 0 default).correct_streak = 0 ∧
    (srMiss.examples.getD 0 default).next_review =
      DVal.add (srMiss.examples.getD 0 default).last_reviewed
        (DVal.mul srMiss.initial_interval (DVal.fin 3600)) := by
  refine ⟨?_, by decide, by decide, by decide, ?_⟩
  · intro sr index h
    rw [spaced_repetition_is_in_ltm, if_neg (by omega)]
  · rw [srMiss_val]
    norm_num [entryAt, DVal.add, DVal.mul, List.getD_cons_zero]

/-- Witness for C6 at the five-times-correct scheduler and index 0. -/
theorem is_in_ltm_iff_streak_witness :
    0 < srFive.examples.length ∧
    (spaced_repetition_is_in_ltm srFive 0 = true ↔
      DVal.le srFive.ltm_threshold
        (DVal.fin (((srFive.examples.getD 0 default).correct_streak : ℚ)))
          = true) :=
  ⟨by decide, is_in_ltm_iff_streak.1 srFive 0 (by decide)⟩

/-- C1 (amended): a correct review at a valid index increments the
streak, stamps last_reviewed with now, and always reschedules to
next_review = now + initial_interval * multiplier * 3600 with
multiplier = 2.5 + max(0, streak - 1) * 0.5 computed from the
post-increment streak: because last_reviewed is overwritten with now
before the elapsed time is computed, the computed elapsed interval is
always 0 hours (below the 0.1 h cutoff), so initial_interval is always
chosen and the real elapsed time never scales the interval. -/
theorem update_correct_reschedules_with_initial_interval
    (sr : SpacedRepetition) (index : Nat) (q : ℚ)
    (h : index < sr.examples.length) :
    ((spaced_repetition_update_example sr index true (DVal.fin q)).examples.getD
        index default).correct_streak
      = (sr.examples.getD index default).correct_streak + 1 ∧
    ((spaced_repetition_update_example sr index true (DVal.fin q)).examples.getD
        index default).last_reviewed = DVal.fin q ∧
    ((spaced_repetition_update_example sr index true (DVal.fin q)).examples.getD
        index default).next_review
      = DVal.add (DVal.fin q)
          (DVal.mul (DVal.mul sr.initial_interval
            (DVal.fin (5/2 +
              (((sr.examples.getD index default).correct_streak : ℚ)) * (1/2))))
            (DVal.fin 3600)) := by
  rw [spaced_repetition_update_example, if_neg (by omega)]
  rw [getD_set_self sr.examples index _ h]
  have hsub : DVal.sub (DVal.fin q) (DVal.fin q) = DVal.fin 0 := by
    simp [DVal.sub, DVal.add, DVal.neg]
  have hdiv : DVal.div (DVal.fin 0) (DVal.fin 3600) = DVal.fin 0 := by
    norm_num [DVal.div]
  have hlt : DVal.lt (DVal.fin 0) (DVal.fin (1/10)) = true := by
    norm_num [DVal.lt]
  refine ⟨rfl, rfl, ?_⟩
  simp only [hsub, hdiv, hlt, if_true]
  rcases (sr.examples.getD index default).correct_streak with _ | k
  · norm_num
  · have hgt : 1 < k + 1 + 1 := by omega
    rw [if_pos hgt]
    simp only [DVal.mul, DVal.add, Nat.add_sub_cancel]

/-- Witness for C1 (amended) at the one-item scheduler, reviewing
correctly at time 36000. -/
theorem update_correct_reschedules_with_initial_interval_witness :
    0 < srOne.examples.length ∧
    (((spaced_repetition_update_example srOne 0 true (DVal.fin 36000)).examples.getD
        0 default).correct_streak
      = (srOne.examples.getD 0 default).correct_streak + 1 ∧
    ((spaced_repetition_update_example srOne 0 true (DVal.fin 36000)).examples.getD
        0 default).last_reviewed = DVal.fin 36000 ∧
    ((spaced_repetition_update_example srOne 0 true (DVal.fin 36000)).examples.getD
        0 default).next_review
      = DVal.add (DVal.fin 36000)
          (DVal.mul (DVal.mul srOne.initial_interval
            (DVal.fin (5/2 +
              (((srOne.examples.getD 0 default).correct_streak : ℚ)) * (1/2))))
            (DVal.fin 3600))) :=
  ⟨by decide,
   update_correct_reschedules_with_initial_interval srOne 0 36000 (by decide)⟩

/-- C1 counterexample: the scheduler holds one entry last reviewed at
time 0 with initial interval 1 hour; a correct review at time 36000
(elapsed 10 hours, exceeding the initial interval) reschedules to
45000 = 36000 + 1 * 2.5 * 3600 seconds, not to 126000 = 36000 +
10 * 2.5 * 3600 seconds as the claimed
effective_interval = max(initial_interval, elapsed_hours) requires. -/
theorem update_ignores_elapsed_counterexample :
    ((spaced_repetition_update_example srOne 0 true (DVal.fin 36000)).examples.getD
        0 default).next_review = DVal.fin 45000 ∧
    DVal.fin (45000 : ℚ) ≠ DVal.fin (126000 : ℚ) := by
  constructor
  · rw [srOne_val]
    norm_num [spaced_repetition_update_example, entryAt, DVal.add, DVal.mul,
      DVal.sub, DVal.neg, DVal.div, DVal.lt, List.getD_cons_zero]
  · norm_num [DVal.fin.injEq]

/-- The predictor output used for the non-finite counter-evidence: a
constant NaN reading. -/
def forwardNan : List DVal → List DVal := fun _ => [DVal.nan]

/-- A difficulty level as produced by curriculum_create, holding the
given examples. -/
def levelAt (i : Nat) (exs : List TrainingExample) : DifficultyLevel :=
  { level := i
    examples := exs
    capacity := 1000
    mastery_threshold := DVal.fin (85/100)
    current_accuracy := DVal.fin 0
    examples_seen := 0 }

/-- A two-level curriculum with one example in level 0. -/
def curriculumOne : Curriculum :=
  curriculum_add_example (curriculum_create 2) exampleZero 0 (DVal.fin 0)

/-- A training engine in curriculum mode over curriculumOne. -/
def engineNan : TrainingEngine :=
  { curriculum := some curriculumOne
    spaced_repetition := none
    stats := default }

theorem curriculumOne_val : curriculumOne =
    { levels := [levelAt 0 [entryAt false 0 0 (DVal.fin 0) (DVal.fin 0)],
        levelAt 1 []]
      current_level := 0
      mastery_threshold := DVal.fin (85/100)
      examples_per_level := 1000 } := by
  norm_num [curriculumOne, curriculum_add_example, curriculum_create,
    copyExample, exampleZero, levelAt, entryAt, List.range_succ]

/-- C7: concrete counter-evidence for the non-finite detection claim.
With predictor output [NaN] against target [0], the per-component check
of the curriculum epoch marks the step CORRECT, because every IEEE
comparison against NaN is false; the epoch then counts it into the
accuracy statistic as a correct prediction (accuracy 1 over 1 example),
while the repository's own validator (training_engine_validate_predictions)
flags the very same output as a hallucination.  So a non-finite output is
not detected before the correctness/accuracy counters are updated. -/
theorem nan_output_counted_correct :
    classifyCorrect [DVal.nan] [DVal.fin 0] = true ∧
    (training_engine_train_with_curriculum forwardNan (fun _ => DVal.fin 0)
      engineNan).stats.accuracy = DVal.fin 1 ∧
    (training_engine_train_with_curriculum forwardNan (fun _ => DVal.fin 0)
      engineNan).stats.examples_seen = 1 ∧
    hallucinationFlag [DVal.nan] = true := by
  refine ⟨by decide, ?_, by decide, by decide⟩
  unfold engineNan
  rw [curriculumOne_val]
  norm_num [training_engine_train_with_curriculum, curriculum_get_current_level,
    curriculumEpochStep, classifyCorrect, forwardNan, levelAt, entryAt,
    DVal.lt, DVal.abs, DVal.sub, DVal.add, DVal.neg, DVal.div,
    List.getD_cons_zero]

theorem applyCurrOp_levels_length (c : Curriculum) (op : CurrOp) :
    (applyCurrOp c op).levels.length = c.levels.length := by
  cases op with
  | advanceOp =>
    simp only [applyCurrOp, curriculum_advance_level]
    split <;> rfl
  | addOp ex level now =>
    simp only [applyCurrOp, curriculum_add_example]
    split
    · rfl
    · simp [List.length_set]
  | shouldAdvanceOp a =>
    simp only [applyCurrOp, curriculum_should_advance]
    split <;> simp [List.length_set]

theorem applyCurrOps_levels_length (ops : List CurrOp) (c : Curriculum) :
    (applyCurrOps c ops).levels.length = c.levels.length := by
  induction ops generalizing c with
  | nil => rfl
  | cons op rest ih =>
    show (applyCurrOps (applyCurrOp c op) rest).levels.length = _
    rw [ih, applyCurrOp_levels_length]

theorem applyCurrOp_current_level_le (c : Curriculum) (op : CurrOp) :
    c.current_level ≤ (applyCurrOp c op).current_level := by
  cases op with
  | advanceOp =>
    simp only [applyCurrOp, curriculum_advance_level]
    split
    · exact Nat.le_succ _
    · exact Nat.le_refl _
  | addOp ex level now =>
    simp only [applyCurrOp, curriculum_add_example]
    split <;> exact Nat.le_refl _
  | shouldAdvanceOp a =>
    simp only [applyCurrOp, curriculum_should_advance]
    split <;> exact Nat.le_refl _

theorem applyCurrOps_current_level_le (ops : List CurrOp) (c : Curriculum) :
    c.current_level ≤ (applyCurrOps c ops).current_level := by
  induction ops generalizing c with
  | nil => exact Nat.le_refl _
  | cons op rest ih =>
    exact Nat.le_trans (applyCurrOp_current_level_le c op) (ih (applyCurrOp c op))

theorem applyCurrOp_current_level_bound (c : Curriculum) (op : CurrOp)
    (h : c.current_level ≤ c.levels.length - 1) :
    (applyCurrOp c op).current_level ≤ (applyCurrOp c op).levels.length - 1 := by
  rw [applyCurrOp_levels_length]
  cases op with
  | advanceOp =>
    simp only [applyCurrOp, curriculum_advance_level]
    split
    · show c.current_level + 1 ≤ c.levels.length - 1
      omega
    · exact h
  | addOp ex level now =>
    simp only [applyCurrOp, curriculum_add_example]
    split
    · exact h
    · show c.current_level ≤ c.levels.length - 1
      exact h
  | shouldAdvanceOp a =>
    simp only [applyCurrOp, curriculum_should_advance]
    split
    · exact h
    · show c.current_level ≤ c.levels.length - 1
      exact h

theorem applyCurrOps_current_level_bound (ops : List CurrOp) (c : Curriculum)
    (h : c.current_level ≤ c.levels.length - 1) :
    (applyCurrOps c ops).current_level ≤ (applyCurrOps c ops).levels.length - 1 := by
  induction ops generalizing c with
  | nil => exact h
  | cons op rest ih =>
    exact ih (applyCurrOp c op) (applyCurrOp_current_level_bound c op h)

/-- C3: for a curriculum created with N >= 1 levels and any sequence of
controller operations (advances, example additions, accuracy checks),
the current level starts at 0, never exceeds N - 1, is non-decreasing
under any further operations, and curriculum_advance_level at the
terminal level N - 1 leaves the state unchanged; no operation decrements
the level. -/
theorem curriculum_level_monotone (N : Nat) (hN : 1 ≤ N)
    (ops extra : List CurrOp) :
    (curriculum_create N).current_level = 0 ∧
    (applyCurrOps (curriculum_create N) ops).current_level ≤ N - 1 ∧
    (applyCurrOps (curriculum_create N) ops).current_level ≤
      (applyCurrOps (curriculum_create N) (ops ++ extra)).current_level ∧
    ((applyCurrOps (curriculum_create N) ops).current_level = N - 1 →
      curriculum_advance_level (applyCurrOps (curriculum_create N) ops) =
        applyCurrOps (curriculum_create N) ops) := by
  have hlen : ∀ ops₀ : List CurrOp,
      (applyCurrOps (curriculum_create N) ops₀).levels.length = N := by
    intro ops₀
    rw [applyCurrOps_levels_length]
    simp [curriculum_create]
  refine ⟨rfl, ?_, ?_, ?_⟩
  · have := applyCurrOps_current_level_bound ops (curriculum_create N)
      (by simp [curriculum_create])
    rw [hlen ops] at this
    exact this
  · simp only [applyCurrOps]
    rw [List.foldl_append]
    exact applyCurrOps_current_level_le extra _
  · intro hterm
    unfold curriculum_advance_level
    rw [if_neg (by rw [hlen ops]; omega)]

/-- Witness for C3 with N = 3 and a concrete operation sequence. -/
theorem curriculum_level_monotone_witness :
    1 ≤ 3 ∧
    (curriculum_create 3).current_level = 0 ∧
    (applyCurrOps (curriculum_create 3) [CurrOp.advanceOp]).current_level ≤ 3 - 1 ∧
    (applyCurrOps (curriculum_create 3) [CurrOp.advanceOp]).current_level ≤
      (applyCurrOps (curriculum_create 3)
        ([CurrOp.advanceOp] ++ [CurrOp.advanceOp])).current_level ∧
    ((applyCurrOps (curriculum_create 3) [CurrOp.advanceOp]).current_level = 3 - 1 →
      curriculum_advance_level (applyCurrOps (curriculum_create 3) [CurrOp.advanceOp]) =
        applyCurrOps (curriculum_create 3) [CurrOp.advanceOp]) :=
  ⟨by omega, curriculum_level_monotone 3 (by omega) [CurrOp.advanceOp] [CurrOp.advanceOp]⟩

/-- C9: curriculum_add_example with an out-of-range level is a complete
no-op (every level's count, capacity and contents unchanged, since the
whole state is unchanged); with a valid level it appends a copy of the
item (contents copied by value, review bookkeeping reset, timestamps set
to now) to that level's store, incrementing its count by one, doubling
the capacity exactly when the store is full, and leaving every other
level untouched. -/
theorem add_example_spec :
    (∀ (c : Curriculum) (ex : TrainingExample) (level : Nat) (now : DVal),
      c.levels.length ≤ level → curriculum_add_example c ex level now = c) ∧
    (∀ (c : Curriculum) (ex : TrainingExample) (level : Nat) (now : DVal),
      level < c.levels.length →
      ((curriculum_add_example c ex level now).levels.getD level default).examples
          = (c.levels.getD level default).examples ++ [copyExample ex now] ∧
      ((curriculum_add_example c ex level now).levels.getD level default).examples.length
          = (c.levels.getD level default).examples.length + 1 ∧
      ((c.levels.getD level default).capacity ≤
          (c.levels.getD level default).examples.length →
        ((curriculum_add_example c ex level now).levels.getD level default).capacity
          = (c.levels.getD level default).capacity * 2) ∧
      ((c.levels.getD level default).examples.length <
          (c.levels.getD level default).capacity →
        ((curriculum_add_example c ex level now).levels.getD level default).capacity
          = (c.levels.getD level default).capacity) ∧
      (∀ j, j ≠ level →
        (curriculum_add_example c ex level now).levels.getD j default
          = c.levels.getD j default) ∧
      (curriculum_add_example c ex level now).current_level = c.current_level) := by
  constructor
  · intro c ex level now h
    rw [curriculum_add_example, if_pos h]
  · intro c ex level now h
    have hupd : (curriculum_add_example c ex level now).levels
        = c.levels.set level
          (let dl := c.levels.getD level default
           let dl := if dl.capacity ≤ dl.examples.length then
              { dl with capacity := dl.capacity * 2 } else dl
           { dl with examples := dl.examples ++ [copyExample ex now] }) := by
      rw [curriculum_add_example, if_neg (by omega)]
    have hcur : (curriculum_add_example c ex level now).current_level
        = c.current_level := by
      rw [curriculum_add_example, if_neg (by omega)]
    by_cases hcap : (c.levels.getD level default).capacity ≤
        (c.levels.getD level default).examples.length
    · rw [hupd]
      simp only [hcap, if_pos, if_true]
      rw [getD_set_self c.levels level _ h]
      refine ⟨rfl, by simp, fun _ => rfl, fun hlt => absurd hcap (by omega), ?_, hcur⟩
      intro j hj
      exact getD_set_ne c.levels level j _ (fun hc => hj hc.symm)
    · rw [hupd]
      simp only [hcap, if_neg, if_false]
      rw [getD_set_self c.levels level _ h]
      refine ⟨rfl, by simp, fun hc => hc.elim, fun _ => rfl, ?_, hcur⟩
      intro j hj
      exact getD_set_ne c.levels level j _ (fun hc => hj hc.symm)

/-- Witness for C9 on a two-level curriculum: both the rejected
out-of-range call and the accepted level-0 call. -/
theorem add_example_spec_witness :
    ((curriculum_create 2).levels.length ≤ 5 ∧
      curriculum_add_example (curriculum_create 2) exampleZero 5 (DVal.fin 0)
        = curriculum_create 2) ∧
    ((0 : Nat) < (curriculum_create 2).levels.length ∧
      ((curriculum_add_example (curriculum_create 2) exampleZero 0
          (DVal.fin 0)).levels.getD 0 default).examples
        = ((curriculum_create 2).levels.getD 0 default).examples
            ++ [copyExample exampleZero (DVal.fin 0)]) :=
  ⟨⟨by decide,
    add_example_spec.1 (curriculum_create 2) exampleZero 5 (DVal.fin 0) (by decide)⟩,
   ⟨by decide,
    (add_example_spec.2 (curriculum_create 2) exampleZero 0 (DVal.fin 0) (by decide)).1⟩⟩

theorem should_advance_fst_current_level (c : Curriculum) (a : DVal) :
    (curriculum_should_advance c a).1.current_level = c.current_level := by
  unfold curriculum_should_advance
  split <;> rfl

theorem should_advance_nan_false (c : Curriculum) :
    (curriculum_should_advance c DVal.nan).2 = false := by
  unfold curriculum_should_advance
  split
  · rfl
  · simp [DVal.le_nan_eq_false]

theorem nextReviewScan_none (l : List TrainingExample) (i : Nat) (now : DVal)
    (earliest : DVal) (h : ∀ ex ∈ l, DVal.le ex.next_review now = false) :
    nextReviewScan l i now none earliest = none := by
  induction l generalizing i earliest with
  | nil => rfl
  | cons ex rest ih =>
    have hx : DVal.le ex.next_review now = false :=
      h ex (List.mem_cons_self ex rest)
    simp only [nextReviewScan, hx, Bool.false_and, Bool.false_eq_true,
      if_false]
    exact ih (i + 1) earliest (fun e he => h e (List.mem_cons_of_mem ex he))

/-- C8: a curriculum training epoch over an empty current-level store and
a spaced-repetition training step with no due item are valid silent
no-ops: the calls return normally (the embedded functions are total),
the examples-seen counter does not advance, the curriculum level does
not advance, and the scheduler is not updated (in the no-due case the
engine is returned entirely unchanged). -/
theorem empty_resources_are_noops :
    (∀ (forward : List DVal → List DVal) (lossOf : TrainingExample → DVal)
       (engine : TrainingEngine) (c : Curriculum),
       engine.curriculum = some c →
       (c.levels.getD (curriculum_get_current_level c) default).examples = [] →
       (training_engine_train_with_curriculum forward lossOf engine).stats.examples_seen
           = engine.stats.examples_seen ∧
       (∃ c', (training_engine_train_with_curriculum forward lossOf engine).curriculum
           = some c' ∧ c'.current_level = c.current_level) ∧
       (training_engine_train_with_curriculum forward lossOf engine).spaced_repetition
           = engine.spaced_repetition) ∧
    (∀ (forward : List DVal → List DVal) (engine : TrainingEngine)
       (sr : SpacedRepetition) (now : DVal),
       engine.spaced_repetition = some sr →
       (∀ ex ∈ sr.examples, DVal.le ex.next_review now = false) →
       training_engine_train_with_spaced_repetition forward engine now = engine) := by
  constructor
  · intro forward lossOf engine c hc hempty
    obtain ⟨cur, srep, stats⟩ := engine
    simp only at hc
    subst hc
    have hnan : DVal.div (DVal.fin ((0 : Nat) : ℚ)) (DVal.fin ((0 : Nat) : ℚ))
        = DVal.nan := by
      norm_num [DVal.div]
    simp only [training_engine_train_with_curriculum, hempty, List.foldl_nil,
      List.length_nil, Nat.add_zero, hnan, should_advance_nan_false,
      Bool.false_eq_true, if_false]
    exact ⟨trivial, ⟨_, rfl, should_advance_fst_current_level c _⟩, trivial⟩
  · intro forward engine sr now hsr hdue
    obtain ⟨cur, srep, stats⟩ := engine
    simp only at hsr
    subst hsr
    have hnone : spaced_repetition_get_next_review sr now = none := by
      unfold spaced_repetition_get_next_review
      exact nextReviewScan_none sr.examples 0 now _ hdue
    simp only [training_engine_train_with_spaced_repetition, hnone]

/-- An engine in curriculum mode whose single level has an empty store. -/
def engineEmptyLevel : TrainingEngine :=
  { curriculum := some (curriculum_create 1)
    spaced_repetition := none
    stats := default }

/-- An engine in spaced-repetition mode whose single item (next review
at 3600) is not yet due at time 100. -/
def engineNotDue : TrainingEngine :=
  { curriculum := none
    spaced_repetition := some srOne
    stats := default }

theorem srOne_not_due :
    ∀ ex ∈ srOne.examples, DVal.le ex.next_review (DVal.fin 100) = false := by
  rw [srOne_val]
  intro ex hex
  simp only [List.mem_singleton] at hex
  subst hex
  norm_num [entryAt, DVal.le]

/-- Witness for C8: a one-level curriculum with an empty store, and a
scheduler whose single item is not yet due. -/
theorem empty_resources_are_noops_witness :
    (engineEmptyLevel.curriculum = some (curriculum_create 1) ∧
      ((curriculum_create 1).levels.getD
        (curriculum_get_current_level (curriculum_create 1)) default).examples = [] ∧
      (training_engine_train_with_curriculum (fun _ => [DVal.fin 0])
        (fun _ => DVal.fin 0) engineEmptyLevel).stats.examples_seen
          = engineEmptyLevel.stats.examples_seen) ∧
    (engineNotDue.spaced_repetition = some srOne ∧
      training_engine_train_with_spaced_repetition (fun _ => [DVal.fin 0])
        engineNotDue (DVal.fin 100) = engineNotDue) :=
  ⟨⟨rfl, by decide,
    (empty_resources_are_noops.1 (fun _ => [DVal.fin 0]) (fun _ => DVal.fin 0)
      engineEmptyLevel (curriculum_create 1) rfl (by decide)).1⟩,
   ⟨rfl,
    empty_resources_are_noops.2 (fun _ => [DVal.fin 0]) engineNotDue srOne
      (DVal.fin 100) rfl srOne_not_due⟩⟩

/-- A concrete conditioned stimulus for the pairing scenario. -/
def csZero : ConditionedStimulus :=
  { stimulus_vector := [0]
    intensity := 1
    timestamp := 0
    occurrence_count := 1 }

/-- A concrete unconditioned stimulus with reward 1.0. -/
def usPlus : UnconditionedStimulus :=
  { stimulus_vector := [0]
    reward_value := 1
    intensity := 1
    timestamp := 0 }

/-- C4: pavlovian_pair_stimuli either updates the first association
matching (cs, us) within the 0.01 per-component tolerance — applying the
Rescorla-Wagner update strength += learning_rate * (lambda - strength)
with lambda = sign(reward), clamping to [-1, 1], incrementing its pairing
counter by one and stamping the pairing time, all other associations
unchanged — or, when none matches, appends a fresh association whose
strength is the same update applied to 0, with one pairing and stamped
time; lambda is always in {-1, 0, 1}; and a single pairing with reward
1.0 and learning rate 0.1 from strength 0 yields exactly 0.1, within the
stated 1e-9 tolerance. -/
theorem pair_stimuli_rescorla_wagner :
    (∀ (l : PavlovianLearner) (cs : ConditionedStimulus)
       (us : UnconditionedStimulus) (now : ℚ) (i : Nat),
      findAssocIdx l cs us = some i →
      (pavlovian_pair_stimuli l cs us now).associations =
        l.associations.set i
          { l.associations.getD i default with
            association_strength := clampStrength
              ((l.associations.getD i default).association_strength +
                l.learning_rate * (lambdaOf us -
                  (l.associations.getD i default).association_strength))
            pairings := (l.associations.getD i default).pairings + 1
            last_pairing_time := now }) ∧
    (∀ (l : PavlovianLearner) (cs : ConditionedStimulus)
       (us : UnconditionedStimulus) (now : ℚ),
      findAssocIdx l cs us = none →
      ∃ newA : CSUSAssociation,
        (pavlovian_pair_stimuli l cs us now).associations
          = l.associations ++ [newA] ∧
        newA.association_strength
          = clampStrength (l.learning_rate * lambdaOf us) ∧
        newA.pairings = 1 ∧
        newA.last_pairing_time = now ∧
        newA.cs = conditioned_stimulus_create cs.stimulus_vector cs.intensity now ∧
        newA.us = unconditioned_stimulus_create us.stimulus_vector
          us.reward_value us.intensity now) ∧
    (∀ us : UnconditionedStimulus,
      lambdaOf us = 1 ∨ lambdaOf us = 0 ∨ lambdaOf us = -1) ∧
    ((pavlovian_pair_stimuli (pavlovian_learner_create (1/10)) csZero usPlus
        0).associations.getD 0 default).association_strength = 1/10 ∧
    |((pavlovian_pair_stimuli (pavlovian_learner_create (1/10)) csZero usPlus
        0).associations.getD 0 default).association_strength - 1/10|
      ≤ 1/1000000000 := by
  have hval : ((pavlovian_pair_stimuli (pavlovian_learner_create (1/10)) csZero
      usPlus 0).associations.getD 0 default).association_strength = 1/10 := by
    norm_num [pavlovian_pair_stimuli, find_or_create_association, findAssocIdx,
      pavlovian_learner_create, csZero, usPlus, lambdaOf, clampStrength,
      conditioned_stimulus_create, unconditioned_stimulus_create,
      List.findIdx?_nil, List.getD_cons_zero]
  refine ⟨?_, ?_, ?_, hval, by rw [hval]; norm_num⟩
  · intro l cs us now i h
    simp only [pavlovian_pair_stimuli, find_or_create_association, h]
  · intro l cs us now h
    simp only [pavlovian_pair_stimuli, find_or_create_association, h]
    by_cases hcap : l.capacity ≤ l.associations.length
    · simp only [hcap, if_pos, if_true]
      rw [getD_append_length, set_append_length]
      refine ⟨_, rfl, congrArg clampStrength (by ring), rfl, rfl, rfl, rfl⟩
    · simp only [hcap, if_neg, if_false]
      rw [getD_append_length, set_append_length]
      refine ⟨_, rfl, congrArg clampStrength (by ring), rfl, rfl, rfl, rfl⟩
  · intro us
    unfold lambdaOf
    split_ifs <;> simp

/-- Witness for C4: the no-match branch at the fresh learner with
learning rate 0.1, pairing csZero with usPlus at time 0. -/
theorem pair_stimuli_rescorla_wagner_witness :
    findAssocIdx (pavlovian_learner_create (1/10)) csZero usPlus = none ∧
    ∃ newA : CSUSAssociation,
      (pavlovian_pair_stimuli (pavlovian_learner_create (1/10)) csZero usPlus
        0).associations
        = (pavlovian_learner_create (1/10)).associations ++ [newA] ∧
      newA.association_strength
        = clampStrength ((pavlovian_learner_create (1/10)).learning_rate *
            lambdaOf usPlus) ∧
      newA.pairings = 1 ∧
      newA.last_pairing_time = 0 ∧
      newA.cs = conditioned_stimulus_create csZero.stimulus_vector
        csZero.intensity 0 ∧
      newA.us = unconditioned_stimulus_create usPlus.stimulus_vector
        usPlus.reward_value usPlus.intensity 0 :=
  ⟨by decide,
   pair_stimuli_rescorla_wagner.2.1 (pavlovian_learner_create (1/10)) csZero
     usPlus 0 (by decide)⟩

/-- The C5 invariant: every stored association strength lies in [-1, 1]. -/
def strengthInvariant (l : PavlovianLearner) : Prop :=
  ∀ a ∈ l.associations, -1 ≤ a.association_strength ∧ a.association_strength ≤ 1

theorem clampStrength_bounds (s : ℚ) :
    -1 ≤ clampStrength s ∧ clampStrength s ≤ 1 := by
  simp only [clampStrength]
  split_ifs <;> constructor <;> linarith

theorem pair_preserves_strengthInvariant (l : PavlovianLearner)
    (cs : ConditionedStimulus) (us : UnconditionedStimulus) (now : ℚ)
    (h : strengthInvariant l) :
    strengthInvariant (pavlovian_pair_stimuli l cs us now) := by
  intro a ha
  rcases hf : findAssocIdx l cs us with _ | i
  · simp only [pavlovian_pair_stimuli, find_or_create_association, hf] at ha
    by_cases hcap : l.capacity ≤ l.associations.length
    · simp only [hcap, if_pos, if_true] at ha
      rw [getD_append_length, set_append_length] at ha
      rcases List.mem_append.mp ha with h1 | h2
      · exact h a h1
      · rw [List.mem_singleton] at h2
        subst h2
        exact clampStrength_bounds _
    · simp only [hcap, if_neg, if_false] at ha
      rw [getD_append_length, set_append_length] at ha
      rcases List.mem_append.mp ha with h1 | h2
      · exact h a h1
      · rw [List.mem_singleton] at h2
        subst h2
        exact clampStrength_bounds _
  · simp only [pavlovian_pair_stimuli, find_or_create_association, hf] at ha
    rcases List.mem_or_eq_of_mem_set ha with h1 | h2
    · exact h a h1
    · subst h2
      exact clampStrength_bounds _

theorem extinction_preserves_strengthInvariant (l : PavlovianLearner)
    (cs : ConditionedStimulus) (hd0 : 0 ≤ l.decay_rate)
    (hd1 : l.decay_rate ≤ 1) (h : strengthInvariant l) :
    strengthInvariant (pavlovian_extinction l cs) := by
  intro a ha
  simp only [pavlovian_extinction] at ha
  rcases List.mem_map.mp ha with ⟨b, hb, hba⟩
  obtain ⟨hb1, hb2⟩ := h b hb
  by_cases hm : csMatches b cs = true
  · rw [if_pos hm] at hba
    subst hba
    have hpos : (0 : ℚ) ≤ 1 - l.decay_rate := by linarith
    have hlo := mul_le_mul_of_nonneg_right hb1 hpos
    have hhi := mul_le_mul_of_nonneg_right hb2 hpos
    constructor
    · simp only []
      nlinarith
    · simp only []
      nlinarith
  · rw [if_neg hm] at hba
    subst hba
    exact ⟨hb1, hb2⟩

theorem applyPavOp_decay_rate (l : PavlovianLearner) (op : PavOp) :
    (applyPavOp l op).decay_rate = l.decay_rate := by
  cases op with
  | pairOp cs us now =>
    rcases hf : findAssocIdx l cs us with _ | i
    · simp only [applyPavOp, pavlovian_pair_stimuli,
        find_or_create_association, hf]
      split <;> rfl
    · simp only [applyPavOp, pavlovian_pair_stimuli,
        find_or_create_association, hf]
  | extinctionOp cs => rfl

theorem applyPavOp_preserves_strengthInvariant (l : PavlovianLearner)
    (op : PavOp) (hd0 : 0 ≤ l.decay_rate) (hd1 : l.decay_rate ≤ 1)
    (h : strengthInvariant l) : strengthInvariant (applyPavOp l op) := by
  cases op with
  | pairOp cs us now => exact pair_preserves_strengthInvariant l cs us now h
  | extinctionOp cs =>
    exact extinction_preserves_strengthInvariant l cs hd0 hd1 h

/-- C5: over every sequence of pairing and extinction operations on a
learner whose decay rate lies in [0, 1], every stored association
strength stays within [-1, 1]; in particular this holds for every
learner made by pavlovian_learner_create (decay rate 0.01, empty table). -/
theorem strength_stays_clamped :
    (∀ (l : PavlovianLearner) (ops : List PavOp),
      0 ≤ l.decay_rate → l.decay_rate ≤ 1 → strengthInvariant l →
      strengthInvariant (applyPavOps l ops)) ∧
    (∀ (lr : ℚ) (ops : List PavOp),
      strengthInvariant (applyPavOps (pavlovian_learner_create lr) ops)) := by
  have main : ∀ (ops : List PavOp) (l : PavlovianLearner),
      0 ≤ l.decay_rate → l.decay_rate ≤ 1 → strengthInvariant l →
      strengthInvariant (applyPavOps l ops) := by
    intro ops
    induction ops with
    | nil => intro l _ _ h; exact h
    | cons op rest ih =>
      intro l hd0 hd1 h
      have hstep := applyPavOp_preserves_strengthInvariant l op hd0 hd1 h
      have hdec := applyPavOp_decay_rate l op
      exact ih (applyPavOp l op) (hdec ▸ hd0) (hdec ▸ hd1) hstep
  constructor
  · exact fun l ops => main ops l
  · intro lr ops
    refine main ops (pavlovian_learner_create lr)
      (by norm_num [pavlovian_learner_create])
      (by norm_num [pavlovian_learner_create]) ?_
    intro a ha
    simp [pavlovian_learner_create] at ha

/-- Witness for C5: one pairing then one extinction on a fresh learner. -/
theorem strength_stays_clamped_witness :
    (0 : ℚ) ≤ (pavlovian_learner_create (1/10)).decay_rate ∧
    (pavlovian_learner_create (1/10)).decay_rate ≤ 1 ∧
    strengthInvariant (pavlovian_learner_create (1/10)) ∧
    strengthInvariant (applyPavOps (pavlovian_learner_create (1/10))
      [PavOp.pairOp csZero usPlus 0, PavOp.extinctionOp csZero]) := by
  have hinv : strengthInvariant (pavlovian_learner_create (1/10)) := by
    intro a ha
    simp [pavlovian_learner_create] at ha
  refine ⟨by norm_num [pavlovian_learner_create],
    by norm_num [pavlovian_learner_create], hinv, ?_⟩
  exact strength_stays_clamped.1 (pavlovian_learner_create (1/10))
    [PavOp.pairOp csZero usPlus 0, PavOp.extinctionOp csZero]
    (by norm_num [pavlovian_learner_create])
    (by norm_num [pavlovian_learner_create]) hinv
